import Mathlib

/-!
Verification of the card-generator core (`card_generator.py`).

Python strings are modelled as `List Char`; the ambient random source is
modelled by explicit parameters (a stream of digit draws, a months-ahead
draw, and a `randint`-style oracle), so every function is a pure Lean
function of its inputs and its random draws.  `datetime.now()` is a `Date`
parameter and `date + timedelta(days = k)` is `k` iterations of the
successor-day function on the Gregorian calendar.
-/

namespace CardGen

/-- Decimal digits of `n`, little-endian, with explicit fuel so that the
kernel can evaluate it (the fuel `n` itself always suffices). -/
def natDigitsRevAux : ℕ → ℕ → List ℕ
  | 0, _ => []
  | fuel + 1, n => if n = 0 then [] else n % 10 :: natDigitsRevAux fuel (n / 10)

/-- Decimal digits of `n`, little-endian. -/
def natDigitsRev (n : ℕ) : List ℕ := natDigitsRevAux n n

/-- Model of Python `str(n)` for a natural number `n`. -/
def natToString (n : ℕ) : List Char :=
  if n = 0 then ['0'] else ((natDigitsRev n).map (fun d => Char.ofNat (48 + d))).reverse

/-- Model of Python `int(s)` on a string of decimal digits. -/
def strToNat (s : List Char) : ℕ :=
  s.foldl (fun a c => 10 * a + (c.toNat - 48)) 0

/-- Model of Python `str.isdigit` (restricted to the ASCII digits the spec
is about): true iff the string is nonempty and every character is `'0'`–`'9'`. -/
def pyIsDigit (s : List Char) : Bool :=
  !s.isEmpty && s.all Char.isDigit

/-- Model of Python `s.ljust(width, c)`. -/
def ljust (s : List Char) (width : ℕ) (c : Char) : List Char :=
  s ++ List.replicate (width - s.length) c

/-- Model of Python `s.zfill(width)` on a digit string. -/
def zfill (width : ℕ) (s : List Char) : List Char :=
  List.replicate (width - s.length) '0' ++ s

/-- Source `validate_bin` (card_generator.py lines 11–15). -/
def validate_bin (bin : List Char) : Bool :=
  if !pyIsDigit bin then false
  else bin.length = 3 || bin.length = 4 || bin.length = 6

/-- Source `detect_card_type` (card_generator.py lines 18–48).  The eager
`int(bin)` raises `ValueError` on an empty or non-digit string, modelled by
`none`. -/
def detect_card_type (bin : List Char) : Option (String × ℕ) :=
  match bin with
  | [] => none
  | c :: rest =>
    if (c :: rest).all Char.isDigit then
      let bin_int := strToNat (c :: rest)
      let bin_len := (c :: rest).length
      some <|
        if bin_len < 6 then
          if c = '4' then ("visa", 16)
          else if c = '3' then ("amex", 15)
          else ("unknown", 16)
        else
          if (c :: rest).take 1 = ['4'] then ("visa", 16)
          else if (c :: rest).take 2 = ['3', '4'] ∨ (c :: rest).take 2 = ['3', '7'] then
            ("amex", 15)
          else if (c :: rest).take 2 = ['5', '1'] ∨ (c :: rest).take 2 = ['5', '2'] ∨
              (c :: rest).take 2 = ['5', '3'] ∨ (c :: rest).take 2 = ['5', '4'] ∨
              (c :: rest).take 2 = ['5', '5'] then
            ("mastercard", 16)
          else if 222100 ≤ bin_int ∧ bin_int ≤ 272099 then ("mastercard", 16)
          else ("unknown", 16)
    else none

/-- Model of the Python slice `l[::2]`: every second element, starting with
the first. -/
def everySecond : List ℕ → List ℕ
  | [] => []
  | [a] => [a]
  | a :: _ :: rest => a :: everySecond rest

/-- Source inner `digits_of` applied to a string: character values as digits. -/
def digits_of (s : List Char) : List ℕ :=
  s.map (fun c => c.toNat - 48)

/-- Source inner `luhn_checksum` (card_generator.py lines 56–65 and 80–89):
`odd_digits = digits[-1::-2]`, `even_digits = digits[-2::-2]`, the even
digits doubled and digit-summed via `sum(digits_of(str(d * 2)))`. -/
def luhn_checksum (card_num : List Char) : ℕ :=
  let digits := digits_of card_num
  let odd_digits := everySecond digits.reverse
  let even_digits := everySecond (digits.reverse.drop 1)
  (odd_digits.sum +
    (even_digits.map (fun d => (digits_of (natToString (d * 2))).sum)).sum) % 10

/-- Source `luhn_check` (card_generator.py lines 75–91). -/
def luhn_check (card_number : List Char) : Bool :=
  luhn_checksum card_number == 0

/-- Source `calculate_luhn_check_digit` (card_generator.py lines 51–72):
first `check_digit` in `range(10)` making the checksum vanish, `0` if the
loop finds none. -/
def calculate_luhn_check_digit (partNum : List Char) : ℕ :=
  match (List.range 10).find? (fun d => luhn_checksum (partNum ++ natToString d) == 0) with
  | some d => d
  | none => 0

/-- Source `generate_card_number`, lines 105–123: the usable BIN-derived
`prefix` variable, scheme-dependent. -/
def pfxOf (bin : List Char) (card_length : ℕ) : List Char :=
  if card_length = 15 then
    if 4 ≤ bin.length then bin.take 4 else ljust bin 4 '0'
  else
    if 6 ≤ bin.length then bin.take 6
    else if 4 ≤ bin.length then bin.take 4
    else if bin.length = 3 then bin.take 3
    else bin

/-- Source `generate_card_number`, steps up to the check digit
(card_generator.py lines 105–132): the `digits_before_check`-digit partial
number built from the BIN and the stream `rnd` of `random.randint(0, 9)`
draws. -/
def synthPartial (bin : List Char) (card_length : ℕ) (rnd : ℕ → ℕ) : List Char :=
  let pfx : List Char := pfxOf bin card_length
  let digits_before_check := if card_length = 15 then 14 else 15
  let remaining := digits_before_check - pfx.length
  if 0 < remaining then
    pfx ++ ((List.range remaining).map (fun i => natToString (rnd i))).flatten
  else
    pfx.take digits_before_check

/-- Source `generate_card_number` (card_generator.py lines 94–143) without
the retry branch; `generate_card_number_retry_needed` below shows the
re-verification never fails, so the recursive retry at line 141 is
unreachable and this is the whole function. -/
def generate_card_number (bin : List Char) (card_length : ℕ) (rnd : ℕ → ℕ) : List Char :=
  let partNum := synthPartial bin card_length rnd
  partNum ++ natToString (calculate_luhn_check_digit partNum)

/-- Source guard at card_generator.py line 139: `true` exactly when
`not luhn_check(card_number)` holds, i.e. when the retry branch would run. -/
def generate_card_number_retry_needed (bin : List Char) (card_length : ℕ) (rnd : ℕ → ℕ) : Bool :=
  !luhn_check (generate_card_number bin card_length rnd)

/-- Gregorian calendar date, as held by Python's `datetime`. -/
structure Date where
  year : ℕ
  month : ℕ
  day : ℕ
deriving DecidableEq

/-- Gregorian leap-year rule. -/
def isLeap (y : ℕ) : Bool :=
  (y % 4 == 0 && y % 100 != 0) || y % 400 == 0

/-- Length of month `m` in year `y`. -/
def daysInMonth (y m : ℕ) : ℕ :=
  if m = 2 then (if isLeap y then 29 else 28)
  else if m = 4 ∨ m = 6 ∨ m = 9 ∨ m = 11 then 30
  else 31

/-- Validity of a `Date` in the proleptic Gregorian calendar (`datetime`
only holds such dates). -/
def validDate (d : Date) : Prop :=
  1 ≤ d.year ∧ 1 ≤ d.month ∧ d.month ≤ 12 ∧ 1 ≤ d.day ∧ d.day ≤ daysInMonth d.year d.month

instance (d : Date) : Decidable (validDate d) := by
  unfold validDate; infer_instance

/-- Successor day in the Gregorian calendar. -/
def nextDay (d : Date) : Date :=
  if d.day < daysInMonth d.year d.month then ⟨d.year, d.month, d.day + 1⟩
  else if d.month < 12 then ⟨d.year, d.month + 1, 1⟩
  else ⟨d.year + 1, 1, 1⟩

/-- Model of `date + timedelta(days = k)`: `datetime` adds `k` to the
proleptic-Gregorian ordinal, which is `k` applications of `nextDay`. -/
def addDays (d : Date) (k : ℕ) : Date := nextDay^[k] d

/-- Cumulative days before month `m` in a common year (0 for January). -/
def daysBeforeMonthBase (m : ℕ) : ℕ :=
  match m with
  | 1 => 0 | 2 => 31 | 3 => 59 | 4 => 90 | 5 => 120 | 6 => 151
  | 7 => 181 | 8 => 212 | 9 => 243 | 10 => 273 | 11 => 304 | 12 => 334
  | _ => 0

/-- Cumulative days before month `m` in year `y`. -/
def daysBeforeMonth (y m : ℕ) : ℕ :=
  daysBeforeMonthBase m + (if isLeap y ∧ 3 ≤ m then 1 else 0)

/-- Number of leap years in `1..n`. -/
def leapsUpTo (n : ℕ) : ℕ := n / 4 + n / 400 - n / 100

/-- Proleptic-Gregorian ordinal of a date (day 1 is 0001-01-01), as in
`datetime.toordinal`. -/
def ordOf (d : Date) : ℕ :=
  365 * (d.year - 1) + leapsUpTo (d.year - 1) + daysBeforeMonth d.year d.month + d.day

/-- Linearised month index of a date, for comparing (year, month) pairs. -/
def ymIndex (d : Date) : ℕ := 12 * d.year + d.month

/-- Source `generate_expiry_date` (card_generator.py lines 146–154) with the
current date and the `random.randint(6, 60)` draw made explicit:
`(str(month).zfill(2), str(year))` of `now + monthsAhead * 30` days. -/
def generate_expiry_date (now : Date) (monthsAhead : ℕ) : List Char × List Char :=
  let expiry := addDays now (monthsAhead * 30)
  (zfill 2 (natToString expiry.month), natToString expiry.year)

/-- Source `generate_cvv` (card_generator.py lines 157–165) with the
`random.randint` oracle made explicit. -/
def generate_cvv (card_number : List Char) (randint : ℕ → ℕ → ℕ) : List Char :=
  if card_number.length = 15 then natToString (randint 1000 9999)
  else natToString (randint 100 999)

/-- Random draws consumed by one `generate_card` call. -/
structure Rng where
  digit : ℕ → ℕ
  monthsAhead : ℕ
  cvv : ℕ → ℕ → ℕ

/-- Faithfulness of the random draws to their `random.randint` bounds. -/
def RngValid (r : Rng) : Prop :=
  (∀ i, r.digit i ≤ 9) ∧ (6 ≤ r.monthsAhead ∧ r.monthsAhead ≤ 60) ∧
    (∀ a b, a ≤ b → a ≤ r.cvv a b ∧ r.cvv a b ≤ b)

/-- Output record of `generate_card`: the dict with keys number, month,
year, cvv. -/
structure CardRecord where
  number : List Char
  month : List Char
  year : List Char
  cvv : List Char
deriving DecidableEq

/-- Source `generate_card` (card_generator.py lines 168–195): classify,
synthesize the number, attach expiry and CVV.  `none` models the
`ValueError` that `detect_card_type` raises on a non-digit or empty BIN. -/
def generate_card (bin : List Char) (r : Rng) (now : Date) : Option CardRecord :=
  (detect_card_type bin).map (fun tl =>
    let card_number := generate_card_number bin tl.2 r.digit
    let expiry := generate_expiry_date now r.monthsAhead
    { number := card_number, month := expiry.1, year := expiry.2,
      cvv := generate_cvv card_number r.cvv })

/-- Loop of `generate_cards` (card_generator.py lines 209–213): after `n`
iterations the accumulated list, `none` as soon as one iteration raises. -/
def generate_cards_loop (bin : List Char) (rs : ℕ → Rng) (now : Date) : ℕ → Option (List CardRecord)
  | 0 => some []
  | n + 1 =>
    (generate_cards_loop bin rs now n).bind (fun cards =>
      (generate_card bin (rs n) now).map (fun card => cards ++ [card]))

/-- Source `generate_cards` (card_generator.py lines 198–213) with one
`Rng` per iteration. -/
def generate_cards (bin : List Char) (quantity : ℕ) (rs : ℕ → Rng) (now : Date) :
    Option (List CardRecord) :=
  generate_cards_loop bin rs now quantity

/-- Spec §4.2 decision procedure, written from the spec's words as the
refinement target for the classifier claim: short BINs by first digit,
6-digit BINs by the stated prefixes, then the [222100, 272099] numeric
range, in the stated priority order. -/
def classify_spec (bin : List Char) : String × ℕ :=
  if bin.length < 6 then
    if bin.headD ' ' = '4' then ("visa", 16)
    else if bin.headD ' ' = '3' then ("amex", 15)
    else ("unknown", 16)
  else if bin.headD ' ' = '4' then ("visa", 16)
  else if bin.take 2 = ['3', '4'] ∨ bin.take 2 = ['3', '7'] then ("amex", 15)
  else if bin.take 2 ∈ [['5', '1'], ['5', '2'], ['5', '3'], ['5', '4'], ['5', '5']] then
    ("mastercard", 16)
  else if 222100 ≤ strToNat bin ∧ strToNat bin ≤ 272099 then ("mastercard", 16)
  else ("unknown", 16)

/-- String `s` starts with the string `p`. -/
def startsWith (p s : List Char) : Prop := ∃ t, s = p ++ t

/-- Contribution of the partial number `p` to the checksum of `p ++ [c]`:
everything except the appended digit itself. -/
def luhnKey (p : List Char) : ℕ :=
  (everySecond ((digits_of p).reverse.drop 1)).sum +
    ((everySecond (digits_of p).reverse).map
      (fun d => (digits_of (natToString (d * 2))).sum)).sum

theorem natDigitsRevAux_eq (fuel n : ℕ) (h : n ≤ fuel) :
    natDigitsRevAux fuel n = Nat.digits 10 n := by
  induction fuel generalizing n with
  | zero => interval_cases n; simp [natDigitsRevAux]
  | succ f ih =>
    by_cases hn : n = 0
    · simp [natDigitsRevAux, hn]
    · rw [natDigitsRevAux, if_neg hn,
        Nat.digits_def' (by norm_num : 1 < 10) (Nat.pos_of_ne_zero hn), ih _ (by omega)]

theorem natDigitsRev_eq (n : ℕ) : natDigitsRev n = Nat.digits 10 n :=
  natDigitsRevAux_eq n n le_rfl

theorem natToString_length (n : ℕ) (hn : n ≠ 0) :
    (natToString n).length = Nat.log 10 n + 1 := by
  rw [natToString, if_neg hn]
  simp [natDigitsRev_eq, Nat.digits_len 10 n (by norm_num) hn]

theorem natToString_length_of_bounds (n k : ℕ) (h1 : 10 ^ k ≤ n) (h2 : n < 10 ^ (k + 1)) :
    (natToString n).length = k + 1 := by
  have hn : n ≠ 0 := by
    have := pow_pos (show (0 : ℕ) < 10 by norm_num) k
    omega
  rw [natToString_length n hn, Nat.log_eq_of_pow_le_of_lt_pow h1 h2]

theorem natToString_single (d : ℕ) (hd : d < 10) :
    natToString d = [Char.ofNat (48 + d)] := by
  interval_cases d <;> rfl

theorem char_ofNat_digit_isDigit (d : ℕ) (hd : d < 10) :
    (Char.ofNat (48 + d)).isDigit = true := by
  interval_cases d <;> rfl

theorem char_ofNat_digit_toNat (d : ℕ) (hd : d < 10) :
    (Char.ofNat (48 + d)).toNat = 48 + d := by
  interval_cases d <;> rfl

theorem natToString_all_digit (n : ℕ) : (natToString n).all Char.isDigit = true := by
  by_cases hn : n = 0
  · subst hn; rfl
  · rw [natToString, if_neg hn]
    simp only [List.all_eq_true, List.mem_reverse, List.mem_map]
    rintro c ⟨d, hd, rfl⟩
    rw [natDigitsRev_eq] at hd
    exact char_ofNat_digit_isDigit d (Nat.digits_lt_base (by norm_num) hd)

theorem everySecond_cons (a : ℕ) (l : List ℕ) :
    everySecond (a :: l) = a :: everySecond (l.drop 1) := by
  cases l <;> rfl

theorem luhn_checksum_append (p : List Char) (c : Char) :
    luhn_checksum (p ++ [c]) = ((c.toNat - 48) + luhnKey p) % 10 := by
  unfold luhn_checksum luhnKey digits_of
  simp only [List.map_append, List.map_cons, List.map_nil, List.reverse_append,
    List.reverse_cons, List.reverse_nil, List.nil_append, List.cons_append,
    List.drop_succ_cons, List.drop_zero, everySecond_cons, List.sum_cons]
  omega

theorem luhn_checksum_append_digit (p : List Char) (d : ℕ) (hd : d < 10) :
    luhn_checksum (p ++ natToString d) = (d + luhnKey p) % 10 := by
  rw [natToString_single d hd, luhn_checksum_append, char_ofNat_digit_toNat d hd]
  congr 2
  omega

theorem exists_check_digit (p : List Char) :
    ∃ d, d < 10 ∧ luhn_checksum (p ++ natToString d) = 0 := by
  refine ⟨(10 - luhnKey p % 10) % 10, by omega, ?_⟩
  rw [luhn_checksum_append_digit p _ (by omega)]
  omega

theorem check_digit_unique (p : List Char) (d1 d2 : ℕ) (h1 : d1 < 10) (h2 : d2 < 10)
    (hc1 : luhn_checksum (p ++ natToString d1) = 0)
    (hc2 : luhn_checksum (p ++ natToString d2) = 0) : d1 = d2 := by
  rw [luhn_checksum_append_digit p d1 h1] at hc1
  rw [luhn_checksum_append_digit p d2 h2] at hc2
  omega

theorem find_check_digit_isSome (p : List Char) :
    ((List.range 10).find? (fun d => luhn_checksum (p ++ natToString d) == 0)).isSome = true := by
  obtain ⟨d, hd, hc⟩ := exists_check_digit p
  exact List.find?_isSome.mpr ⟨d, List.mem_range.mpr hd, by simp [hc]⟩

theorem calculate_luhn_check_digit_lt (p : List Char) : calculate_luhn_check_digit p < 10 := by
  unfold calculate_luhn_check_digit
  rcases h : (List.range 10).find? (fun d => luhn_checksum (p ++ natToString d) == 0) with _ | d
  · decide
  · exact List.mem_range.mp (List.mem_of_find?_eq_some h)

theorem calculate_luhn_check_digit_checksum (p : List Char) :
    luhn_checksum (p ++ natToString (calculate_luhn_check_digit p)) = 0 := by
  unfold calculate_luhn_check_digit
  rcases h : (List.range 10).find? (fun d => luhn_checksum (p ++ natToString d) == 0) with _ | d
  · have := find_check_digit_isSome p
    rw [h] at this
    simp at this
  · simpa using List.find?_some h

theorem flatten_map_length (n : ℕ) (f : ℕ → List Char) (h : ∀ i, (f i).length = 1) :
    (((List.range n).map f).flatten).length = n := by
  induction n with
  | zero => simp
  | succ m ih =>
    rw [List.range_succ]
    simp [ih, h]

theorem flatten_map_all_digit (n : ℕ) (f : ℕ → List Char)
    (h : ∀ i, (f i).all Char.isDigit = true) :
    (((List.range n).map f).flatten).all Char.isDigit = true := by
  induction n with
  | zero => simp
  | succ m ih =>
    rw [List.range_succ]
    simp [ih, h]

theorem all_digit_take (l : List Char) (k : ℕ) (h : l.all Char.isDigit = true) :
    (l.take k).all Char.isDigit = true := by
  simp only [List.all_eq_true] at h ⊢
  exact fun c hc => h c (List.take_subset k l hc)

theorem all_digit_ljust (s : List Char) (w : ℕ) (h : s.all Char.isDigit = true) :
    (ljust s w '0').all Char.isDigit = true := by
  simp only [ljust, List.all_append, h, Bool.true_and, List.all_eq_true, List.mem_replicate]
  rintro c ⟨-, rfl⟩
  rfl

theorem synthPartial_length (bin : List Char) (cl : ℕ) (rnd : ℕ → ℕ) (hr : ∀ i, rnd i ≤ 9) :
    (synthPartial bin cl rnd).length = if cl = 15 then 14 else 15 := by
  have hflat : ∀ m, (((List.range m).map (fun i => natToString (rnd i))).flatten).length = m :=
    fun m => flatten_map_length m _ (fun i => by
      rw [natToString_single _ (by have := hr i; omega)]
      rfl)
  simp only [synthPartial, ljust]
  split_ifs <;> simp_all <;> omega

theorem pfxOf_all_digit (bin : List Char) (cl : ℕ) (hbin : bin.all Char.isDigit = true) :
    (pfxOf bin cl).all Char.isDigit = true := by
  rw [pfxOf]
  split_ifs <;>
    first
      | exact all_digit_take bin _ hbin
      | exact all_digit_ljust bin 4 hbin
      | exact hbin

theorem synthPartial_all_digit (bin : List Char) (cl : ℕ) (rnd : ℕ → ℕ)
    (hbin : bin.all Char.isDigit = true) :
    (synthPartial bin cl rnd).all Char.isDigit = true := by
  have hflat : ∀ m, (((List.range m).map (fun i => natToString (rnd i))).flatten).all
      Char.isDigit = true :=
    fun m => flatten_map_all_digit m _ (fun i => natToString_all_digit (rnd i))
  have hpfx : (pfxOf bin cl).all Char.isDigit = true := pfxOf_all_digit bin cl hbin
  simp only [synthPartial]
  split_ifs <;> simp_all [all_digit_take, List.all_append] <;>
    exact fun a _ => by simpa using natToString_all_digit (rnd a)

theorem generate_card_number_length (bin : List Char) (cl : ℕ) (rnd : ℕ → ℕ)
    (hr : ∀ i, rnd i ≤ 9) :
    (generate_card_number bin cl rnd).length = if cl = 15 then 15 else 16 := by
  rw [generate_card_number, List.length_append,
    synthPartial_length bin cl rnd hr,
    natToString_single _ (calculate_luhn_check_digit_lt (synthPartial bin cl rnd))]
  split_ifs <;> rfl

theorem generate_card_number_all_digit (bin : List Char) (cl : ℕ) (rnd : ℕ → ℕ)
    (hbin : bin.all Char.isDigit = true) :
    (generate_card_number bin cl rnd).all Char.isDigit = true := by
  rw [generate_card_number, List.all_append, synthPartial_all_digit bin cl rnd hbin,
    natToString_all_digit, Bool.and_self]

theorem generate_card_number_luhn (bin : List Char) (cl : ℕ) (rnd : ℕ → ℕ) :
    luhn_check (generate_card_number bin cl rnd) = true := by
  rw [generate_card_number, luhn_check]
  simp [calculate_luhn_check_digit_checksum (synthPartial bin cl rnd)]

/-- C1: for every BIN string of digits and every totalLength in {15, 16},
`generate_card_number` returns a string of decimal digits of length exactly
totalLength that passes the Luhn checksum. -/
theorem c1_generate_card_number_wellformed (bin : List Char) (cl : ℕ) (rnd : ℕ → ℕ)
    (hbin : bin.all Char.isDigit = true) (hcl : cl = 15 ∨ cl = 16) (hr : ∀ i, rnd i ≤ 9) :
    (generate_card_number bin cl rnd).all Char.isDigit = true ∧
    (generate_card_number bin cl rnd).length = cl ∧
    luhn_check (generate_card_number bin cl rnd) = true := by
  refine ⟨generate_card_number_all_digit bin cl rnd hbin, ?_, generate_card_number_luhn bin cl rnd⟩
  rw [generate_card_number_length bin cl rnd hr]
  rcases hcl with rfl | rfl <;> rfl

/-- Closed witness for `c1_generate_card_number_wellformed` at BIN "4111",
totalLength 16, all random digits 0. -/
theorem c1_generate_card_number_wellformed_witness :
    (generate_card_number ['4', '1', '1', '1'] 16 (fun _ => 0)).all Char.isDigit = true ∧
    (generate_card_number ['4', '1', '1', '1'] 16 (fun _ => 0)).length = 16 ∧
    luhn_check (generate_card_number ['4', '1', '1', '1'] 16 (fun _ => 0)) = true :=
  c1_generate_card_number_wellformed ['4', '1', '1', '1'] 16 (fun _ => 0) (by decide)
    (Or.inr rfl) (fun _ => Nat.zero_le 9)

/-- C2: for every digit string `p` there is exactly one digit `d < 10`
whose appending makes the string Luhn-valid; `calculate_luhn_check_digit`
returns that digit, and the fallback `return 0` after the loop is dead code
(the search in `range(10)` always succeeds). -/
theorem c2_check_digit_exists_unique (p : List Char) (_hp : p.all Char.isDigit = true) :
    (∃! d, d < 10 ∧ luhn_check (p ++ natToString d) = true) ∧
    calculate_luhn_check_digit p < 10 ∧
    luhn_check (p ++ natToString (calculate_luhn_check_digit p)) = true ∧
    ((List.range 10).find? (fun d => luhn_checksum (p ++ natToString d) == 0)).isSome = true ∧
    (∀ d, d < 10 → luhn_check (p ++ natToString d) = true → calculate_luhn_check_digit p = d) := by
  have hlt := calculate_luhn_check_digit_lt p
  have hcs := calculate_luhn_check_digit_checksum p
  have hcheck : luhn_check (p ++ natToString (calculate_luhn_check_digit p)) = true := by
    simp [luhn_check, hcs]
  have huniq : ∀ d, d < 10 → luhn_check (p ++ natToString d) = true →
      calculate_luhn_check_digit p = d := by
    intro d hd hc
    refine check_digit_unique p _ d hlt hd hcs ?_
    simpa [luhn_check] using hc
  exact ⟨⟨calculate_luhn_check_digit p, ⟨hlt, hcheck⟩,
      fun d ⟨hd, hc⟩ => (huniq d hd hc).symm⟩,
    hlt, hcheck, find_check_digit_isSome p, huniq⟩

/-- Closed witness for `c2_check_digit_exists_unique` at the partial number
"411100000000000". -/
theorem c2_check_digit_exists_unique_witness :
    (∃! d, d < 10 ∧ luhn_check
      (['4', '1', '1', '1', '0', '0', '0', '0', '0', '0', '0', '0', '0', '0', '0'] ++
        natToString d) = true) ∧
    calculate_luhn_check_digit
      ['4', '1', '1', '1', '0', '0', '0', '0', '0', '0', '0', '0', '0', '0', '0'] < 10 ∧
    luhn_check (['4', '1', '1', '1', '0', '0', '0', '0', '0', '0', '0', '0', '0', '0', '0'] ++
      natToString (calculate_luhn_check_digit
        ['4', '1', '1', '1', '0', '0', '0', '0', '0', '0', '0', '0', '0', '0', '0'])) = true ∧
    ((List.range 10).find? (fun d => luhn_checksum
      (['4', '1', '1', '1', '0', '0', '0', '0', '0', '0', '0', '0', '0', '0', '0'] ++
        natToString d) == 0)).isSome = true ∧
    (∀ d, d < 10 → luhn_check
        (['4', '1', '1', '1', '0', '0', '0', '0', '0', '0', '0', '0', '0', '0', '0'] ++
          natToString d) = true →
      calculate_luhn_check_digit
        ['4', '1', '1', '1', '0', '0', '0', '0', '0', '0', '0', '0', '0', '0', '0'] = d) :=
  c2_check_digit_exists_unique
    ['4', '1', '1', '1', '0', '0', '0', '0', '0', '0', '0', '0', '0', '0', '0'] (by decide)

theorem validate_bin_true_iff (s : List Char) :
    validate_bin s = true ↔
      (s.all Char.isDigit = true ∧ (s.length = 3 ∨ s.length = 4 ∨ s.length = 6)) := by
  rcases s with _ | ⟨c, rest⟩
  · simp [validate_bin, pyIsDigit]
  · by_cases hd : (c :: rest).all Char.isDigit = true
    · simp [validate_bin, pyIsDigit, hd]
      tauto
    · have hd' : (c :: rest).all Char.isDigit = false := by simpa using hd
      simp [validate_bin, pyIsDigit, hd']

/-- C4: `validate_bin` returns true exactly on all-digit strings of length
3, 4 or 6, and is total (no exception; every other input yields false). -/
theorem c4_validate_bin_iff (s : List Char) :
    validate_bin s = true ↔
      (s.all Char.isDigit = true ∧ (s.length = 3 ∨ s.length = 4 ∨ s.length = 6)) :=
  validate_bin_true_iff s

/-- C9: the re-verification guard after appending the check digit never
fires, so the recursive retry branch of `generate_card_number` is
unreachable and the function returns after one iteration. -/
theorem c9_retry_branch_unreachable (bin : List Char) (cl : ℕ) (rnd : ℕ → ℕ)
    (_hbin : bin.all Char.isDigit = true) (_hcl : cl = 15 ∨ cl = 16) :
    generate_card_number_retry_needed bin cl rnd = false := by
  rw [generate_card_number_retry_needed, generate_card_number_luhn]
  rfl

/-- Closed witness for `c9_retry_branch_unreachable` at BIN "340000",
totalLength 15, all random digits 7. -/
theorem c9_retry_branch_unreachable_witness :
    generate_card_number_retry_needed ['3', '4', '0', '0', '0', '0'] 15 (fun _ => 7) = false :=
  c9_retry_branch_unreachable ['3', '4', '0', '0', '0', '0'] 15 (fun _ => 7) (by decide)
    (Or.inl rfl)

/-- C3: on every validated BIN (digit string of length 3, 4 or 6),
`detect_card_type` returns exactly the classification of the §4.2 decision
procedure `classify_spec`, in its stated priority order. -/
theorem c3_classifier_refines_spec (bin : List Char) (hbin : bin.all Char.isDigit = true)
    (hlen : bin.length = 3 ∨ bin.length = 4 ∨ bin.length = 6) :
    detect_card_type bin = some (classify_spec bin) := by
  rcases bin with _ | ⟨c, rest⟩
  · simp at hlen
  · rw [detect_card_type, if_pos hbin]
    simp only [classify_spec, List.headD_cons, List.take_succ_cons, List.take_zero,
      List.mem_cons, List.not_mem_nil, or_false, List.cons.injEq, and_true,
      Option.some_inj]

/-- Closed witness for `c3_classifier_refines_spec` at BIN "222100". -/
theorem c3_classifier_refines_spec_witness :
    detect_card_type ['2', '2', '2', '1', '0', '0'] =
      some (classify_spec ['2', '2', '2', '1', '0', '0']) :=
  c3_classifier_refines_spec ['2', '2', '2', '1', '0', '0'] (by decide)
    (Or.inr (Or.inr (by decide)))

theorem startsWith_trans (a b s : List Char) (h1 : startsWith a b) (h2 : startsWith b s) :
    startsWith a s := by
  obtain ⟨u, rfl⟩ := h1
  obtain ⟨t, rfl⟩ := h2
  exact ⟨u ++ t, by simp⟩

theorem pfxOf_length_le (bin : List Char) (cl : ℕ) : (pfxOf bin cl).length ≤ 6 := by
  rw [pfxOf, ljust]
  split_ifs <;> (try simp) <;> omega

theorem synthPartial_eq_append (bin : List Char) (cl : ℕ) (rnd : ℕ → ℕ) :
    synthPartial bin cl rnd = pfxOf bin cl ++
      ((List.range ((if cl = 15 then 14 else 15) - (pfxOf bin cl).length)).map
        (fun i => natToString (rnd i))).flatten := by
  have h := pfxOf_length_le bin cl
  have hpos : 0 < (if cl = 15 then 14 else 15) - (pfxOf bin cl).length := by
    split_ifs <;> omega
  simp only [synthPartial]
  rw [if_pos hpos]

theorem startsWith_generate_card_number (bin : List Char) (cl : ℕ) (rnd : ℕ → ℕ) :
    startsWith (pfxOf bin cl) (generate_card_number bin cl rnd) :=
  startsWith_trans _ _ _ ⟨_, synthPartial_eq_append bin cl rnd⟩ ⟨_, rfl⟩

/-- C5: for a BIN (length 3, 4 or 6) no longer than the scheme cap (4 when
totalLength is 15, 6 when it is 16) the generated number starts with the
BIN (zero-padded to 4 for amex-shaped BINs shorter than 4); a BIN longer
than the cap contributes exactly its first cap digits. -/
theorem c5_bin_prefix_preserved (bin : List Char) (cl : ℕ) (rnd : ℕ → ℕ)
    (hbin : bin.length = 3 ∨ bin.length = 4 ∨ bin.length = 6) :
    (cl = 15 → bin.length ≤ 4 → startsWith bin (generate_card_number bin cl rnd)) ∧
    (cl = 16 → bin.length ≤ 6 → startsWith bin (generate_card_number bin cl rnd)) ∧
    (cl = 15 → 4 < bin.length →
      startsWith (bin.take 4) (generate_card_number bin cl rnd)) ∧
    (cl = 16 → 6 < bin.length →
      startsWith (bin.take 6) (generate_card_number bin cl rnd)) ∧
    (cl = 15 → bin.length < 4 →
      startsWith (ljust bin 4 '0') (generate_card_number bin cl rnd)) := by
  have hsw := startsWith_generate_card_number bin cl rnd
  refine ⟨?_, ?_, ?_, ?_, ?_⟩
  · rintro rfl hle
    rcases hbin with h | h | h
    · have hpfx : pfxOf bin 15 = ljust bin 4 '0' := by
        rw [pfxOf, if_pos rfl, if_neg (by omega)]
      exact startsWith_trans _ _ _ ⟨_, rfl⟩ (by simpa only [hpfx] using hsw)
    · have hpfx : pfxOf bin 15 = bin := by
        rw [pfxOf, if_pos rfl, if_pos (by omega), show (4 : ℕ) = bin.length from h.symm,
          List.take_length]
      simpa only [hpfx] using hsw
    · omega
  · rintro rfl _
    rcases hbin with h | h | h
    · have hpfx : pfxOf bin 16 = bin := by
        rw [pfxOf, if_neg (by norm_num), if_neg (by omega), if_neg (by omega), if_pos h,
          show (3 : ℕ) = bin.length from h.symm, List.take_length]
      simpa only [hpfx] using hsw
    · have hpfx : pfxOf bin 16 = bin := by
        rw [pfxOf, if_neg (by norm_num), if_neg (by omega), if_pos (by omega),
          show (4 : ℕ) = bin.length from h.symm, List.take_length]
      simpa only [hpfx] using hsw
    · have hpfx : pfxOf bin 16 = bin := by
        rw [pfxOf, if_neg (by norm_num), if_pos (by omega),
          show (6 : ℕ) = bin.length from h.symm, List.take_length]
      simpa only [hpfx] using hsw
  · rintro rfl hgt
    have hpfx : pfxOf bin 15 = bin.take 4 := by
      rw [pfxOf, if_pos rfl, if_pos (by omega)]
    simpa only [hpfx] using hsw
  · rintro rfl hgt
    rcases hbin with h | h | h <;> omega
  · rintro rfl hlt
    have hpfx : pfxOf bin 15 = ljust bin 4 '0' := by
      rw [pfxOf, if_pos rfl, if_neg (by omega)]
    simpa only [hpfx] using hsw

/-- Closed witness for `c5_bin_prefix_preserved` at BIN "300" with
totalLength 15 (amex shape, zero-padded). -/
theorem c5_bin_prefix_preserved_witness :
    ((15 : ℕ) = 15 → (['3', '0', '0'] : List Char).length ≤ 4 →
      startsWith ['3', '0', '0'] (generate_card_number ['3', '0', '0'] 15 (fun _ => 2))) ∧
    ((15 : ℕ) = 16 → (['3', '0', '0'] : List Char).length ≤ 6 →
      startsWith ['3', '0', '0'] (generate_card_number ['3', '0', '0'] 15 (fun _ => 2))) ∧
    ((15 : ℕ) = 15 → 4 < (['3', '0', '0'] : List Char).length →
      startsWith ((['3', '0', '0'] : List Char).take 4)
        (generate_card_number ['3', '0', '0'] 15 (fun _ => 2))) ∧
    ((15 : ℕ) = 16 → 6 < (['3', '0', '0'] : List Char).length →
      startsWith ((['3', '0', '0'] : List Char).take 6)
        (generate_card_number ['3', '0', '0'] 15 (fun _ => 2))) ∧
    ((15 : ℕ) = 15 → (['3', '0', '0'] : List Char).length < 4 →
      startsWith (ljust ['3', '0', '0'] 4 '0')
        (generate_card_number ['3', '0', '0'] 15 (fun _ => 2))) :=
  c5_bin_prefix_preserved ['3', '0', '0'] 15 (fun _ => 2) (Or.inl (by decide))

/-- C6: `generate_cvv` draws from [1000, 9999] and returns a 4-digit string
when the card number has length 15, and draws from [100, 999] and returns a
3-digit string otherwise; the CVV length depends only on the number's
length. -/
theorem c6_generate_cvv_shape (card : List Char) (ri : ℕ → ℕ → ℕ)
    (hri : ∀ a b, a ≤ b → a ≤ ri a b ∧ ri a b ≤ b) :
    (card.length = 15 →
      generate_cvv card ri = natToString (ri 1000 9999) ∧
      1000 ≤ ri 1000 9999 ∧ ri 1000 9999 ≤ 9999 ∧
      (generate_cvv card ri).length = 4 ∧
      (generate_cvv card ri).all Char.isDigit = true) ∧
    (card.length ≠ 15 →
      generate_cvv card ri = natToString (ri 100 999) ∧
      100 ≤ ri 100 999 ∧ ri 100 999 ≤ 999 ∧
      (generate_cvv card ri).length = 3 ∧
      (generate_cvv card ri).all Char.isDigit = true) := by
  constructor
  · intro h15
    obtain ⟨hlo, hhi⟩ := hri 1000 9999 (by norm_num)
    have heq : generate_cvv card ri = natToString (ri 1000 9999) := by
      rw [generate_cvv, if_pos h15]
    refine ⟨heq, hlo, hhi, ?_, heq ▸ natToString_all_digit _⟩
    rw [heq]
    exact natToString_length_of_bounds _ 3 (by norm_num [hlo]) (by norm_num; omega)
  · intro h15
    obtain ⟨hlo, hhi⟩ := hri 100 999 (by norm_num)
    have heq : generate_cvv card ri = natToString (ri 100 999) := by
      rw [generate_cvv, if_neg h15]
    refine ⟨heq, hlo, hhi, ?_, heq ▸ natToString_all_digit _⟩
    rw [heq]
    exact natToString_length_of_bounds _ 2 (by norm_num [hlo]) (by norm_num; omega)

/-- Closed witness for `c6_generate_cvv_shape` at a 15-character number and
the low end of each `randint` range. -/
theorem c6_generate_cvv_shape_witness :
    ((List.replicate 15 '1').length = 15 →
      generate_cvv (List.replicate 15 '1') (fun a _ => a) = natToString 1000 ∧
      1000 ≤ 1000 ∧ (1000 : ℕ) ≤ 9999 ∧
      (generate_cvv (List.replicate 15 '1') (fun a _ => a)).length = 4 ∧
      (generate_cvv (List.replicate 15 '1') (fun a _ => a)).all Char.isDigit = true) ∧
    ((List.replicate 15 '1').length ≠ 15 →
      generate_cvv (List.replicate 15 '1') (fun a _ => a) = natToString 100 ∧
      100 ≤ 100 ∧ (100 : ℕ) ≤ 999 ∧
      (generate_cvv (List.replicate 15 '1') (fun a _ => a)).length = 3 ∧
      (generate_cvv (List.replicate 15 '1') (fun a _ => a)).all Char.isDigit = true) :=
  c6_generate_cvv_shape (List.replicate 15 '1') (fun a _ => a)
    (fun a _ h => ⟨le_refl a, h⟩)

theorem generate_card_isSome (bin : List Char) (r : Rng) (now : Date) (hne : bin ≠ [])
    (hdig : bin.all Char.isDigit = true) :
    ∃ card, generate_card bin r now = some card := by
  rcases bin with _ | ⟨c, rest⟩
  · exact absurd rfl hne
  · rw [generate_card, detect_card_type, if_pos hdig]
    exact ⟨_, rfl⟩

theorem generate_cards_loop_spec (bin : List Char) (rs : ℕ → Rng) (now : Date)
    (hsome : ∀ i, ∃ card, generate_card bin (rs i) now = some card) (n : ℕ) :
    ∃ l, generate_cards_loop bin rs now n = some l ∧ l.length = n ∧
      ∀ i (hi : i < l.length), generate_card bin (rs i) now = some (l.get ⟨i, hi⟩) := by
  induction n with
  | zero => exact ⟨[], rfl, rfl, fun i hi => absurd hi (by simp)⟩
  | succ m ih =>
    obtain ⟨l, hl, hlen, hget⟩ := ih
    obtain ⟨c0, hc0⟩ := hsome m
    refine ⟨l ++ [c0], ?_, by simp [hlen], ?_⟩
    · rw [generate_cards_loop, hl, hc0]
      rfl
    · intro i hi
      by_cases him : i < l.length
      · have hgoal : (l ++ [c0]).get ⟨i, hi⟩ = l.get ⟨i, him⟩ := by
          simp [List.get_eq_getElem, List.getElem_append_left him]
        rw [hgoal]
        exact hget i him
      · have hieq : i = l.length := by
          have hi' : i < l.length + 1 := by simpa using hi
          omega
        have hgoal : (l ++ [c0]).get ⟨i, hi⟩ = c0 := by
          subst hieq
          simp [List.get_eq_getElem]
        rw [hgoal, hieq, hlen]
        exact hc0

/-- C7: for every valid BIN and every quantity n ≥ 1, `generate_cards`
returns a batch of exactly n records, each one produced by
`generate_card` (classify, synthesize, attach attributes) on the same BIN;
no partial batch is ever returned. -/
theorem c7_batch_size_exact (bin : List Char) (n : ℕ) (rs : ℕ → Rng) (now : Date)
    (hbin : validate_bin bin = true) (_hn : 1 ≤ n) :
    ∃ l, generate_cards bin n rs now = some l ∧ l.length = n ∧
      ∀ i (hi : i < l.length), generate_card bin (rs i) now = some (l.get ⟨i, hi⟩) := by
  obtain ⟨hdig, hlen⟩ := (validate_bin_true_iff bin).mp hbin
  have hne : bin ≠ [] := by
    rintro rfl
    rcases hlen with h | h | h <;> simp at h
  exact generate_cards_loop_spec bin rs now
    (fun i => generate_card_isSome bin (rs i) now hne hdig) n

/-- Closed witness for `c7_batch_size_exact` at BIN "411111", quantity 2. -/
theorem c7_batch_size_exact_witness :
    ∃ l, generate_cards ['4', '1', '1', '1', '1', '1'] 2
        (fun _ => ⟨fun _ => 0, 6, fun a _ => a⟩) ⟨2025, 1, 1⟩ = some l ∧
      l.length = 2 ∧
      ∀ i (hi : i < l.length),
        generate_card ['4', '1', '1', '1', '1', '1']
          ((fun _ => (⟨fun _ => 0, 6, fun a _ => a⟩ : Rng)) i) ⟨2025, 1, 1⟩ =
          some (l.get ⟨i, hi⟩) :=
  c7_batch_size_exact ['4', '1', '1', '1', '1', '1'] 2
    (fun _ => ⟨fun _ => 0, 6, fun a _ => a⟩) ⟨2025, 1, 1⟩ (by decide) (by norm_num)

/-- C10: a digit string of length 1, 2 or 5 is rejected by the validator,
yet `detect_card_type` still classifies it by the first-digit rule and
`generate_card` still returns a record whose number is Luhn-valid and has
the classified length — generation never re-checks BIN validity. -/
theorem c10_generation_skips_validation (bin : List Char) (hbin : bin.all Char.isDigit = true)
    (hlen : bin.length = 1 ∨ bin.length = 2 ∨ bin.length = 5)
    (r : Rng) (hr : ∀ i, r.digit i ≤ 9) (now : Date) :
    validate_bin bin = false ∧
    detect_card_type bin = some (if bin.headD ' ' = '4' then ("visa", 16)
      else if bin.headD ' ' = '3' then ("amex", 15) else ("unknown", 16)) ∧
    ∃ card, generate_card bin r now = some card ∧ luhn_check card.number = true ∧
      card.number.length = (if bin.headD ' ' = '3' then 15 else 16) := by
  rcases bin with _ | ⟨c, rest⟩
  · simp at hlen
  have hv : validate_bin (c :: rest) = false := by
    cases h : validate_bin (c :: rest) with
    | false => rfl
    | true =>
      obtain ⟨-, hl⟩ := (validate_bin_true_iff _).mp h
      simp only [List.length_cons] at hl hlen
      omega
  have hlt5 : rest.length < 5 := by
    simp only [List.length_cons] at hlen
    omega
  have hd0 : detect_card_type (c :: rest) = some (if c = '4' then ("visa", 16)
      else if c = '3' then ("amex", 15) else ("unknown", 16)) := by
    rw [detect_card_type, if_pos hbin]
    simp [hlt5]
  refine ⟨hv, by rw [hd0]; simp only [List.headD_cons], ?_⟩
  by_cases h3 : c = '3'
  · have hd : detect_card_type (c :: rest) = some ("amex", 15) := by
      rw [hd0]
      simp [h3]
    refine ⟨{ number := generate_card_number (c :: rest) 15 r.digit,
              month := (generate_expiry_date now r.monthsAhead).1,
              year := (generate_expiry_date now r.monthsAhead).2,
              cvv := generate_cvv (generate_card_number (c :: rest) 15 r.digit) r.cvv },
        ?_, generate_card_number_luhn _ _ _, ?_⟩
    · rw [generate_card, hd]
      rfl
    · have hl := generate_card_number_length (c :: rest) 15 r.digit hr
      simpa [List.headD_cons, h3] using hl
  · by_cases h4 : c = '4'
    · have hd : detect_card_type (c :: rest) = some ("visa", 16) := by
        rw [hd0]
        simp [h4]
      refine ⟨{ number := generate_card_number (c :: rest) 16 r.digit,
                month := (generate_expiry_date now r.monthsAhead).1,
                year := (generate_expiry_date now r.monthsAhead).2,
                cvv := generate_cvv (generate_card_number (c :: rest) 16 r.digit) r.cvv },
          ?_, generate_card_number_luhn _ _ _, ?_⟩
      · rw [generate_card, hd]
        rfl
      · have hl := generate_card_number_length (c :: rest) 16 r.digit hr
        simpa [List.headD_cons, h3] using hl
    · have hd : detect_card_type (c :: rest) = some ("unknown", 16) := by
        rw [hd0]
        simp [h3, h4]
      refine ⟨{ number := generate_card_number (c :: rest) 16 r.digit,
                month := (generate_expiry_date now r.monthsAhead).1,
                year := (generate_expiry_date now r.monthsAhead).2,
                cvv := generate_cvv (generate_card_number (c :: rest) 16 r.digit) r.cvv },
          ?_, generate_card_number_luhn _ _ _, ?_⟩
      · rw [generate_card, hd]
        rfl
      · have hl := generate_card_number_length (c :: rest) 16 r.digit hr
        simpa [List.headD_cons, h3] using hl

/-- Closed witness for `c10_generation_skips_validation` at the length-5
BIN "30000" (amex-shaped, rejected by the validator). -/
theorem c10_generation_skips_validation_witness :
    validate_bin ['3', '0', '0', '0', '0'] = false ∧
    detect_card_type ['3', '0', '0', '0', '0'] =
      some (if (['3', '0', '0', '0', '0'] : List Char).headD ' ' = '4' then ("visa", 16)
        else if (['3', '0', '0', '0', '0'] : List Char).headD ' ' = '3' then ("amex", 15)
        else ("unknown", 16)) ∧
    ∃ card, generate_card ['3', '0', '0', '0', '0'] ⟨fun _ => 5, 12, fun a _ => a⟩
        ⟨2025, 6, 10⟩ = some card ∧
      luhn_check card.number = true ∧
      card.number.length =
        (if (['3', '0', '0', '0', '0'] : List Char).headD ' ' = '3' then 15 else 16) :=
  c10_generation_skips_validation ['3', '0', '0', '0', '0'] (by decide)
    (Or.inr (Or.inr (by decide))) ⟨fun _ => 5, 12, fun a _ => a⟩
    (fun _ => by norm_num) ⟨2025, 6, 10⟩

end CardGen

namespace CardGen

theorem daysInMonth_pos (y m : ℕ) : 1 ≤ daysInMonth y m := by
  rw [daysInMonth]
  split_ifs <;> omega

theorem daysInMonth_le_31 (y m : ℕ) : daysInMonth y m ≤ 31 := by
  rw [daysInMonth]
  split_ifs <;> omega

theorem addDays_succ (d : Date) (n : ℕ) : addDays d (n + 1) = nextDay (addDays d n) :=
  Function.iterate_succ_apply' nextDay n d

theorem validDate_nextDay (d : Date) (h : validDate d) : validDate (nextDay d) := by
  obtain ⟨y, m, dd⟩ := d
  simp only [validDate] at h
  rw [nextDay]
  (try dsimp only)
  split_ifs with h1 h2 <;> simp only [validDate]
  · omega
  · have := daysInMonth_pos y (m + 1)
    omega
  · have := daysInMonth_pos (y + 1) 1
    omega

theorem validDate_addDays (d : Date) (k : ℕ) (h : validDate d) : validDate (addDays d k) := by
  induction k with
  | zero => exact h
  | succ n ih =>
    rw [addDays_succ]
    exact validDate_nextDay _ ih

theorem ymIndex_nextDay (d : Date) (h : validDate d) :
    ymIndex d ≤ ymIndex (nextDay d) ∧ ymIndex (nextDay d) ≤ ymIndex d + 1 := by
  obtain ⟨y, m, dd⟩ := d
  simp only [validDate] at h
  rw [nextDay]
  (try dsimp only)
  split_ifs with h1 h2 <;> simp only [ymIndex] <;> omega

theorem ymIndex_addDays_lower (d : Date) (k : ℕ) (h : validDate d) :
    ymIndex d ≤ ymIndex (addDays d k) := by
  induction k with
  | zero => exact le_refl _
  | succ n ih =>
    rw [addDays_succ]
    exact le_trans ih (ymIndex_nextDay _ (validDate_addDays d n h)).1

theorem year_nextDay_lower (d : Date) : d.year ≤ (nextDay d).year := by
  obtain ⟨y, m, dd⟩ := d
  rw [nextDay]
  (try dsimp only)
  split_ifs <;> (try dsimp only) <;> omega

theorem year_addDays_lower (d : Date) (k : ℕ) : d.year ≤ (addDays d k).year := by
  induction k with
  | zero => exact le_refl _
  | succ n ih =>
    rw [addDays_succ]
    exact le_trans ih (year_nextDay_lower _)

theorem leapsUpTo_succ (n : ℕ) :
    leapsUpTo (n + 1) = leapsUpTo n + (if isLeap (n + 1) then 1 else 0) := by
  rw [leapsUpTo, leapsUpTo, isLeap]
  simp only [Bool.or_eq_true, Bool.and_eq_true, beq_iff_eq, bne_iff_ne, ne_eq, decide_eq_true_eq]
  split_ifs <;> omega

theorem leapsUpTo_mono : Monotone leapsUpTo := by
  apply monotone_nat_of_le_succ
  intro n
  rw [leapsUpTo_succ]
  split_ifs <;> omega

theorem daysBeforeMonth_succ (y m : ℕ) (h1 : 1 ≤ m) (h2 : m ≤ 11) :
    daysBeforeMonth y (m + 1) = daysBeforeMonth y m + daysInMonth y m := by
  interval_cases m <;>
    cases hL : isLeap y <;>
      simp [daysBeforeMonth, daysBeforeMonthBase, daysInMonth, hL]

theorem daysInMonth_twelve (y : ℕ) : daysInMonth y 12 = 31 := by
  simp [daysInMonth]

theorem ordOf_nextDay (d : Date) (h : validDate d) : ordOf (nextDay d) = ordOf d + 1 := by
  obtain ⟨y, m, dd⟩ := d
  simp only [validDate] at h
  obtain ⟨hy, hm1, hm2, hd1, hd2⟩ := h
  rw [nextDay]
  (try dsimp only)
  split_ifs with h1 h2
  · simp only [ordOf]
    omega
  · have hstep := daysBeforeMonth_succ y m hm1 (by omega)
    simp only [ordOf]
    omega
  · have hm12 : m = 12 := by omega
    subst hm12
    have h31 := daysInMonth_twelve y
    have hdm : dd = 31 := by omega
    subst hdm
    obtain ⟨z, rfl⟩ : ∃ z, y = z + 1 := ⟨y - 1, by omega⟩
    have hls := leapsUpTo_succ z
    simp only [ordOf]
    simp only [daysBeforeMonth, daysBeforeMonthBase]
    norm_num
    split_ifs at hls ⊢ <;> simp_all <;> omega

theorem ordOf_addDays (d : Date) (k : ℕ) (h : validDate d) :
    ordOf (addDays d k) = ordOf d + k := by
  induction k with
  | zero => rfl
  | succ n ih =>
    rw [addDays_succ, ordOf_nextDay _ (validDate_addDays d n h), ih]
    omega

end CardGen

namespace CardGen

theorem daysBeforeMonthBase_le (m : ℕ) (h : m ≤ 12) : daysBeforeMonthBase m ≤ 334 := by
  interval_cases m <;> simp [daysBeforeMonthBase]

theorem daysBeforeMonthBase_gap :
    ∀ m1 < 13, ∀ m2 < 13, 1 ≤ m1 → m1 + 1 ≤ m2 →
      daysBeforeMonthBase m1 + 28 ≤ daysBeforeMonthBase m2 := by
  decide

theorem daysBeforeMonth_bounds (y m : ℕ) :
    daysBeforeMonthBase m ≤ daysBeforeMonth y m ∧
      daysBeforeMonth y m ≤ daysBeforeMonthBase m + 1 := by
  rw [daysBeforeMonth]
  split_ifs <;> omega

theorem ym_gap_ord (a b : Date) (ha : validDate a) (hb : validDate b)
    (h : ymIndex a + 61 ≤ ymIndex b) : ordOf a + 1800 < ordOf b := by
  obtain ⟨ya, ma, da⟩ := a
  obtain ⟨yb, mb, db⟩ := b
  simp only [validDate] at ha hb
  simp only [ymIndex] at h
  obtain ⟨hya, hma1, hma2, hda1, hda2⟩ := ha
  obtain ⟨hyb, hmb1, hmb2, hdb1, hdb2⟩ := hb
  simp only [ordOf]
  have hdan : da ≤ 31 := le_trans hda2 (daysInMonth_le_31 _ _)
  have hba := daysBeforeMonth_bounds ya ma
  have hbb := daysBeforeMonth_bounds yb mb
  have hbasea := daysBeforeMonthBase_le ma hma2
  have hbaseb := daysBeforeMonthBase_le mb hmb2
  by_cases hy6 : ya + 6 ≤ yb
  · have hmono : leapsUpTo (ya - 1) ≤ leapsUpTo (yb - 1) := leapsUpTo_mono (by omega)
    omega
  · have hy5 : yb = ya + 5 := by omega
    have hmb_gt : ma + 1 ≤ mb := by omega
    have hgap : daysBeforeMonthBase ma + 28 ≤ daysBeforeMonthBase mb :=
      daysBeforeMonthBase_gap ma (by omega) mb (by omega) hma1 hmb_gt
    have hmono : leapsUpTo (ya - 1) ≤ leapsUpTo (yb - 1) := leapsUpTo_mono (by omega)
    omega

theorem ymIndex_addDays_upper (now : Date) (k : ℕ) (hv : validDate now) (hk : k ≤ 1800) :
    ymIndex (addDays now k) ≤ ymIndex now + 60 := by
  by_contra hcon
  push_neg at hcon
  have h61 : ymIndex now + 61 ≤ ymIndex (addDays now k) := by omega
  have hlt := ym_gap_ord now (addDays now k) hv (validDate_addDays now k hv) h61
  rw [ordOf_addDays now k hv] at hlt
  omega

theorem year_addDays_upper (now : Date) (k : ℕ) (hv : validDate now) (hk : k ≤ 1800) :
    (addDays now k).year ≤ now.year + 5 := by
  by_contra hcon
  push_neg at hcon
  have h61 : ymIndex now + 61 ≤ ymIndex (addDays now k) := by
    have hm2 : now.month ≤ 12 := hv.2.2.1
    have hm1 : 1 ≤ (addDays now k).month := (validDate_addDays now k hv).2.1
    simp only [ymIndex]
    omega
  have hlt := ym_gap_ord now (addDays now k) hv (validDate_addDays now k hv) h61
  rw [ordOf_addDays now k hv] at hlt
  omega

theorem zfill_length (w : ℕ) (s : List Char) : (zfill w s).length = max w s.length := by
  simp [zfill]
  omega

theorem zfill_all_digit (w : ℕ) (s : List Char) (h : s.all Char.isDigit = true) :
    (zfill w s).all Char.isDigit = true := by
  simp only [zfill, List.all_append, h, Bool.and_true, List.all_eq_true, List.mem_replicate]
  rintro c ⟨-, rfl⟩
  rfl

theorem natToString_month_length (mo : ℕ) (h1 : 1 ≤ mo) (h2 : mo ≤ 12) :
    (natToString mo).length = 1 ∨ (natToString mo).length = 2 := by
  by_cases h : mo < 10
  · exact Or.inl (natToString_length_of_bounds mo 0 (by omega) (by norm_num; omega))
  · exact Or.inr (natToString_length_of_bounds mo 1 (by norm_num; omega) (by norm_num; omega))

/-- C8: every record of `generate_expiry_date` (now plus m*30 days, m drawn
from [6, 60]) has a zero-padded two-digit month between 01 and 12 and a
four-digit year, and its (month, year) pair lies between now and
now + 60 months inclusive (years bounded so that the year exists and stays
four digits, as `datetime` requires). -/
theorem c8_expiry_wellformed (now : Date) (m : ℕ) (hv : validDate now)
    (hm1 : 6 ≤ m) (hm2 : m ≤ 60) (hy1 : 1000 ≤ now.year) (hy2 : now.year ≤ 9994) :
    (generate_expiry_date now m).1 = zfill 2 (natToString ((addDays now (m * 30)).month)) ∧
    1 ≤ (addDays now (m * 30)).month ∧ (addDays now (m * 30)).month ≤ 12 ∧
    (generate_expiry_date now m).1.length = 2 ∧
    (generate_expiry_date now m).1.all Char.isDigit = true ∧
    (generate_expiry_date now m).2 = natToString ((addDays now (m * 30)).year) ∧
    (generate_expiry_date now m).2.length = 4 ∧
    (generate_expiry_date now m).2.all Char.isDigit = true ∧
    ymIndex now ≤ ymIndex (addDays now (m * 30)) ∧
    ymIndex (addDays now (m * 30)) ≤ ymIndex now + 60 := by
  have hvd := validDate_addDays now (m * 30) hv
  have hk : m * 30 ≤ 1800 := by omega
  have hmlo : 1 ≤ (addDays now (m * 30)).month := hvd.2.1
  have hmhi : (addDays now (m * 30)).month ≤ 12 := hvd.2.2.1
  have hylo : 1000 ≤ (addDays now (m * 30)).year :=
    le_trans hy1 (year_addDays_lower now _)
  have hyhi : (addDays now (m * 30)).year ≤ 9999 := by
    have := year_addDays_upper now (m * 30) hv hk
    omega
  have hml := natToString_month_length _ hmlo hmhi
  refine ⟨rfl, hmlo, hmhi, ?_, ?_, rfl, ?_, ?_,
    ymIndex_addDays_lower now _ hv, ymIndex_addDays_upper now _ hv hk⟩
  · rw [show (generate_expiry_date now m).1 =
        zfill 2 (natToString ((addDays now (m * 30)).month)) from rfl, zfill_length]
    omega
  · rw [show (generate_expiry_date now m).1 =
        zfill 2 (natToString ((addDays now (m * 30)).month)) from rfl]
    exact zfill_all_digit _ _ (natToString_all_digit _)
  · rw [show (generate_expiry_date now m).2 =
        natToString ((addDays now (m * 30)).year) from rfl]
    exact natToString_length_of_bounds _ 3 (by norm_num; omega) (by norm_num; omega)
  · rw [show (generate_expiry_date now m).2 =
        natToString ((addDays now (m * 30)).year) from rfl]
    exact natToString_all_digit _

/-- Closed witness for `c8_expiry_wellformed` at now = 2025-10-12, m = 6. -/
theorem c8_expiry_wellformed_witness :
    (generate_expiry_date ⟨2025, 10, 12⟩ 6).1 =
      zfill 2 (natToString ((addDays ⟨2025, 10, 12⟩ (6 * 30)).month)) ∧
    1 ≤ (addDays ⟨2025, 10, 12⟩ (6 * 30)).month ∧
    (addDays ⟨2025, 10, 12⟩ (6 * 30)).month ≤ 12 ∧
    (generate_expiry_date ⟨2025, 10, 12⟩ 6).1.length = 2 ∧
    (generate_expiry_date ⟨2025, 10, 12⟩ 6).1.all Char.isDigit = true ∧
    (generate_expiry_date ⟨2025, 10, 12⟩ 6).2 =
      natToString ((addDays ⟨2025, 10, 12⟩ (6 * 30)).year) ∧
    (generate_expiry_date ⟨2025, 10, 12⟩ 6).2.length = 4 ∧
    (generate_expiry_date ⟨2025, 10, 12⟩ 6).2.all Char.isDigit = true ∧
    ymIndex ⟨2025, 10, 12⟩ ≤ ymIndex (addDays ⟨2025, 10, 12⟩ (6 * 30)) ∧
    ymIndex (addDays ⟨2025, 10, 12⟩ (6 * 30)) ≤ ymIndex ⟨2025, 10, 12⟩ + 60 :=
  c8_expiry_wellformed ⟨2025, 10, 12⟩ 6 (by decide) (by norm_num) (by norm_num)
    (by norm_num) (by norm_num)

end CardGen
